import Mathlib

/-!
# Hubble CLI: the TLS dial option (`cmd/common/conn/tls.go`)

A shallow embedding of `grpcOptionTLS`, the option builder that decides between a
plaintext and a TLS-protected gRPC connection and assembles the TLS configuration.

The function talks to three collaborators that live outside the repository:

* the configuration view (`*viper.Viper`), read through `GetString`, `GetBool` and
  `GetStringSlice` with the literal keys of the source;
* the file system and the Go standard library (`ioutil.ReadFile`,
  `(*x509.CertPool).AppendCertsFromPEM`, `tls.LoadX509KeyPair`);
* the constant `defaults.TargetTLSPrefix`.

They are gathered in `Viper` and `World`.  Every call that touches the file system is
recorded in a trace, so that statements such as "no file is read" can be expressed.
A Go result pair `(value, error)` is kept as a pair of options (`none` is `nil`).
-/

set_option autoImplicit false

namespace Hubble

/-! ## Data model -/

/-- A Go `error` value, identified by the text of its `Error()` method. -/
structure GoError where
  msg : String
  deriving DecidableEq, Repr

/-- An `x509.Certificate`, identified by its raw encoding. -/
structure Certificate where
  Raw : String
  deriving DecidableEq, Repr

/-- A `tls.Certificate`: a certificate chain together with its private key. -/
structure TlsCertificate where
  Certificate : List String
  PrivateKey : String
  deriving DecidableEq, Repr

/-- The argument of the client certificate callback, `tls.CertificateRequestInfo`. -/
structure CertificateRequestInfo where
  AcceptableCAs : List String
  Version : Nat
  deriving DecidableEq, Repr

/-- An `x509.CertPool`: the certificates it holds, in insertion order. -/
structure CertPool where
  certs : List Certificate
  deriving DecidableEq, Repr

/-- The fields of `tls.Config` that `grpcOptionTLS` sets; `none` is Go's `nil`. -/
structure TlsConfig where
  InsecureSkipVerify : Bool
  ServerName : String
  RootCAs : Option CertPool
  GetClientCertificate :
    Option (CertificateRequestInfo → Option TlsCertificate × Option GoError)

/-- A `grpc.DialOption` as far as transport security is concerned. -/
inductive DialOption where
  | WithInsecure : DialOption
  | WithTransportCredentials (creds : TlsConfig) : DialOption

/-- The configuration view `*viper.Viper`, seen through the three getters in use. -/
structure Viper where
  GetString : String → String
  GetBool : String → Bool
  GetStringSlice : String → List String

/-- The collaborators outside the repository.

* `TargetTLSPrefix` is the constant `defaults.TargetTLSPrefix`;
* `ReadFile` is `ioutil.ReadFile`: the content of the file, or the error;
* `decodeCerts` gives the certificates that `AppendCertsFromPEM` parses out of a
  file content (the `CERTIFICATE` blocks that decode);
* `LoadX509KeyPair` is `tls.LoadX509KeyPair`. -/
structure World where
  TargetTLSPrefix : String
  ReadFile : String → Except GoError String
  decodeCerts : String → List Certificate
  LoadX509KeyPair : String → String → Except GoError TlsCertificate

/-- A call that reaches the file system. -/
inductive IOEvent where
  | ReadFile (path : String) : IOEvent
  | LoadX509KeyPair (certFile keyFile : String) : IOEvent
  deriving DecidableEq, Repr

/-- What one call of `grpcOptionTLS` yields: the Go result pair and the file system
calls it made, oldest first. -/
structure Result where
  opt : Option DialOption
  err : Option GoError
  trace : List IOEvent

/-! ## Library functions -/

/-- Go's `strings.HasPrefix`: `s` begins with `pfx`.  Strings are kept as text; for
well-formed text a leading run of characters is a leading run of bytes. -/
def HasPrefix (s pfx : String) : Bool :=
  pfx.data.isPrefixOf s.data

/-- Go's `x509.NewCertPool`. -/
def NewCertPool : CertPool := ⟨[]⟩

/-- Adding one certificate to a pool; a certificate already present is not added again. -/
def CertPool.addCert (s : CertPool) (c : Certificate) : CertPool :=
  if c ∈ s.certs then s else ⟨s.certs ++ [c]⟩

/-- Go's `(*x509.CertPool).AppendCertsFromPEM`: every certificate parsed from the data
is added; the flag reports whether any certificate was parsed. -/
def AppendCertsFromPEM (w : World) (s : CertPool) (pemCerts : String) : CertPool × Bool :=
  ((w.decodeCerts pemCerts).foldl CertPool.addCert s, !(w.decodeCerts pemCerts).isEmpty)

/-- The error of `fmt.Errorf("cannot load cert '%s': %s", path, err)`. -/
def errCannotLoad (path : String) (err : GoError) : GoError :=
  ⟨"cannot load cert '" ++ path ++ "': " ++ err.msg⟩

/-- The error of
`fmt.Errorf("cannot process cert '%s': must be a PEM encoded certificate", path)`. -/
def errCannotProcess (path : String) : GoError :=
  ⟨"cannot process cert '" ++ path ++ "': must be a PEM encoded certificate"⟩

/-- The error of `errors.New("mTLS client certificate requested, but not provided")`. -/
def errNotProvided : GoError :=
  ⟨"mTLS client certificate requested, but not provided"⟩

/-! ## `grpcOptionTLS` -/

/-- The loop `for _, path := range caFiles` (lines 50-58): read each file and append
its certificates to the pool `ca`; stop at the first file that fails. -/
def caLoop (w : World) : List String → CertPool → List IOEvent →
    Except GoError CertPool × List IOEvent
  | [], ca, tr => (.ok ca, tr)
  | path :: rest, ca, tr =>
    match w.ReadFile path with
    | .error err => (.error (errCannotLoad path err), tr ++ [IOEvent.ReadFile path])
    | .ok certPEM =>
      if !(AppendCertsFromPEM w ca certPEM).2 then
        (.error (errCannotProcess path), tr ++ [IOEvent.ReadFile path])
      else
        caLoop w rest (AppendCertsFromPEM w ca certPEM).1 (tr ++ [IOEvent.ReadFile path])

/-- The closure installed as `tlsConfig.GetClientCertificate` (lines 73-78); `cert` is
the captured pointer. -/
def getClientCertificate (cert : Option TlsCertificate) :
    CertificateRequestInfo → Option TlsCertificate × Option GoError :=
  fun _ =>
    match cert with
    | none => (none, some errNotProvided)
    | some c => (some c, none)

/-- The "optional mTLS" part (lines 62-81), entered with the configuration built so
far and the trace so far. -/
def mTLS (w : World) (vp : Viper) (tlsConfig : TlsConfig) (tr : List IOEvent) : Result :=
  let clientCertFile := vp.GetString "tls-client-cert-file"
  let clientKeyFile := vp.GetString "tls-client-key-file"
  if clientCertFile ≠ "" ∧ clientKeyFile ≠ "" then
    match w.LoadX509KeyPair clientCertFile clientKeyFile with
    | .error err =>
      ⟨none, some err, tr ++ [IOEvent.LoadX509KeyPair clientCertFile clientKeyFile]⟩
    | .ok c =>
      ⟨some (DialOption.WithTransportCredentials
          { tlsConfig with GetClientCertificate := some (getClientCertificate (some c)) }),
        none, tr ++ [IOEvent.LoadX509KeyPair clientCertFile clientKeyFile]⟩
  else
    ⟨some (DialOption.WithTransportCredentials
        { tlsConfig with GetClientCertificate := some (getClientCertificate none) }),
      none, tr⟩

/-- The function `grpcOptionTLS` of `cmd/common/conn/tls.go`. -/
def grpcOptionTLS (w : World) (vp : Viper) : Result :=
  let target := vp.GetString "server"
  if !(vp.GetBool "tls" || HasPrefix target w.TargetTLSPrefix) then
    ⟨some DialOption.WithInsecure, none, []⟩
  else
    let tlsConfig : TlsConfig :=
      { InsecureSkipVerify := vp.GetBool "tls-allow-insecure"
        ServerName := vp.GetString "tls-server-name"
        RootCAs := none
        GetClientCertificate := none }
    let caFiles := vp.GetStringSlice "tls-ca-cert-files"
    if caFiles.length > 0 then
      match caLoop w caFiles NewCertPool [] with
      | (.error err, tr) => ⟨none, some err, tr⟩
      | (.ok ca, tr) => mTLS w vp { tlsConfig with RootCAs := some ca } tr
    else
      mTLS w vp tlsConfig []

/-! ## Vocabulary of the statements -/

/-- The configuration asks for TLS: the `tls` flag is set or the `server` address starts
with the secure prefix. -/
def secured (w : World) (vp : Viper) : Prop :=
  vp.GetBool "tls" = true ∨ HasPrefix (vp.GetString "server") w.TargetTLSPrefix = true

instance (w : World) (vp : Viper) : Decidable (secured w vp) := by
  unfold secured; infer_instance

/-- A CA file is usable: it can be read and at least one certificate is parsed from it. -/
def caFileGood (w : World) (path : String) : Bool :=
  match w.ReadFile path with
  | .error _ => false
  | .ok certPEM => !(w.decodeCerts certPEM).isEmpty

/-- The error `grpcOptionTLS` reports for a CA file that is not usable. -/
def caFileError (w : World) (path : String) : GoError :=
  match w.ReadFile path with
  | .error err => errCannotLoad path err
  | .ok _ => errCannotProcess path

/-- The message `msg` contains the text `s`. -/
def mentions (msg s : String) : Prop :=
  s.data <:+: msg.data

instance (msg s : String) : Decidable (mentions msg s) := by
  unfold mentions; infer_instance

/-- The key pair step goes through: no pair is configured, or the pair loads. -/
def keyPairOk (w : World) (vp : Viper) : Prop :=
  vp.GetString "tls-client-cert-file" ≠ "" ∧ vp.GetString "tls-client-key-file" ≠ "" →
    ∃ c, w.LoadX509KeyPair (vp.GetString "tls-client-cert-file")
      (vp.GetString "tls-client-key-file") = .ok c

/-! ## Sample configurations and worlds -/

/-- A configuration view given by its seven values; any other key reads as unset. -/
def mkViper (server : String) (tls : Bool) (allowInsecure : Bool) (serverName : String)
    (caFiles : List String) (certFile keyFile : String) : Viper where
  GetString := fun k =>
    if k = "server" then server
    else if k = "tls-server-name" then serverName
    else if k = "tls-client-cert-file" then certFile
    else if k = "tls-client-key-file" then keyFile
    else ""
  GetBool := fun k =>
    if k = "tls" then tls
    else if k = "tls-allow-insecure" then allowInsecure
    else false
  GetStringSlice := fun k => if k = "tls-ca-cert-files" then caFiles else []

/-- A small file system: `ca3.pem` holds three certificates, `ca1.pem` one, `junk.pem`
is readable but holds no certificate, every other CA path is missing; the pair
`client.crt`, `client.key` loads, `bad.crt` is malformed, any other pair does not
match. -/
def sampleWorld : World where
  TargetTLSPrefix := "tls://"
  ReadFile := fun p =>
    if p = "ca3.pem" then .ok "A B C"
    else if p = "ca1.pem" then .ok "D"
    else if p = "junk.pem" then .ok "junk"
    else .error ⟨"open " ++ p ++ ": no such file or directory"⟩
  decodeCerts := fun d =>
    if d = "A B C" then [⟨"A"⟩, ⟨"B"⟩, ⟨"C"⟩]
    else if d = "D" then [⟨"D"⟩]
    else []
  LoadX509KeyPair := fun c k =>
    if c = "client.crt" ∧ k = "client.key" then .ok ⟨["leaf"], "key"⟩
    else if c = "bad.crt" then .error ⟨"x509: malformed certificate"⟩
    else .error ⟨"tls: private key does not match public key"⟩

/-- The same configuration view with another `server` address. -/
def Viper.withServer (vp : Viper) (addr : String) : Viper :=
  { vp with GetString := fun k => if k = "server" then addr else vp.GetString k }

/-- Plaintext target; a CA file and a client pair are configured all the same. -/
def vpPlain : Viper :=
  mkViper "localhost:4245" false true "relay" ["missing.pem"] "client.crt" "client.key"

/-- The `tls` flag is set and the only CA file is missing. -/
def vpMissingCA : Viper :=
  mkViper "localhost:4245" true false "" ["missing.pem"] "" ""

/-- The `tls` flag is unset and the address carries the secure prefix. -/
def vpPrefixOnly : Viper :=
  mkViper "tls://relay:443" false false "" [] "" ""

/-- The `tls` flag is set, one CA file, a client certificate without its key. -/
def vpCertOnly : Viper :=
  mkViper "localhost:4245" true false "" ["ca3.pem"] "client.crt" ""

/-- The second CA file holds no certificate and the third one is missing. -/
def vpJunkCA : Viper :=
  mkViper "localhost:4245" true false "" ["ca3.pem", "junk.pem", "missing.pem"]
    "client.crt" "client.key"

/-- Mutual TLS with two CA files, verification skipped and a server name. -/
def vpMutual : Viper :=
  mkViper "tls://relay:443" false true "relay.example" ["ca3.pem", "ca1.pem"]
    "client.crt" "client.key"

/-- The `tls` flag is set, no CA file, a client pair that is malformed. -/
def vpBadPair : Viper :=
  mkViper "localhost:4245" true false "" [] "bad.crt" "bad.key"

/-- The `tls` flag is set, no CA file, no client pair. -/
def vpNoCA : Viper :=
  mkViper "localhost:4245" true false "" [] "" ""

/-- The `tls` flag is set, the only CA file holds no certificate, and the client pair
is malformed. -/
def vpJunkBadPair : Viper :=
  mkViper "localhost:4245" true false "" ["junk.pem"] "bad.crt" "bad.key"

/-! ## The CA loop -/

theorem caFileGood_iff (w : World) (path : String) :
    caFileGood w path = true ↔
      ∃ d, w.ReadFile path = .ok d ∧ w.decodeCerts d ≠ [] := by
  unfold caFileGood
  cases h : w.ReadFile path with
  | error e => simp
  | ok d => cases hd : w.decodeCerts d <;> simp [hd]

theorem mem_foldl_addCert (cs : List Certificate) (s : CertPool) (c : Certificate) :
    c ∈ (cs.foldl CertPool.addCert s).certs ↔ c ∈ s.certs ∨ c ∈ cs := by
  induction cs generalizing s with
  | nil => simp
  | cons a rest ih =>
    rw [List.foldl_cons, ih]
    unfold CertPool.addCert
    by_cases ha : a ∈ s.certs
    · simp only [ha, if_true, List.mem_cons]
      constructor
      · rintro (h | h)
        · exact Or.inl h
        · exact Or.inr (Or.inr h)
      · rintro (h | h | h)
        · exact Or.inl h
        · exact Or.inl (h ▸ ha)
        · exact Or.inr h
    · simp only [ha, if_false, List.mem_append, List.mem_singleton, List.mem_cons]
      tauto

theorem nodup_foldl_addCert (cs : List Certificate) (s : CertPool) (h : s.certs.Nodup) :
    (cs.foldl CertPool.addCert s).certs.Nodup := by
  induction cs generalizing s with
  | nil => simpa using h
  | cons a rest ih =>
    rw [List.foldl_cons]
    apply ih
    unfold CertPool.addCert
    by_cases ha : a ∈ s.certs
    · simpa [ha] using h
    · simp only [ha, if_false]
      rw [List.nodup_append]
      refine ⟨h, List.nodup_singleton a, ?_⟩
      intro x hx hx2
      rw [List.mem_singleton] at hx2
      exact ha (hx2 ▸ hx)

/-- One turn of the loop on a usable file. -/
theorem caLoop_cons_good (w : World) (path : String) (rest : List String) (ca : CertPool)
    (tr : List IOEvent) (d : String) (hd : w.ReadFile path = .ok d)
    (hne : w.decodeCerts d ≠ []) :
    caLoop w (path :: rest) ca tr =
      caLoop w rest ⟨((w.decodeCerts d).foldl CertPool.addCert ca).certs⟩
        (tr ++ [IOEvent.ReadFile path]) := by
  have hemp : (w.decodeCerts d).isEmpty = false := by
    cases h : w.decodeCerts d with
    | nil => exact absurd h hne
    | cons a l => rfl
  simp [caLoop, hd, AppendCertsFromPEM, hemp]

/-- One turn of the loop on a file that is not usable. -/
theorem caLoop_cons_bad (w : World) (path : String) (rest : List String) (ca : CertPool)
    (tr : List IOEvent) (hbad : caFileGood w path = false) :
    caLoop w (path :: rest) ca tr =
      (.error (caFileError w path), tr ++ [IOEvent.ReadFile path]) := by
  unfold caFileGood at hbad
  unfold caFileError
  cases h : w.ReadFile path with
  | error e => simp [caLoop, h]
  | ok d =>
    rw [h] at hbad
    simp only [Bool.not_eq_false'] at hbad
    simp [caLoop, h, AppendCertsFromPEM, hbad]

/-- When every file is usable the loop ends with a pool that holds the certificates it
started with and those of the files, and it has read every file in order. -/
theorem caLoop_all_good (w : World) (paths : List String) (ca : CertPool)
    (tr : List IOEvent) (hall : ∀ p ∈ paths, caFileGood w p = true) :
    ∃ ca2 : CertPool,
      caLoop w paths ca tr = (.ok ca2, tr ++ paths.map IOEvent.ReadFile) ∧
      (ca.certs.Nodup → ca2.certs.Nodup) ∧
      ∀ c, c ∈ ca2.certs ↔
        c ∈ ca.certs ∨ ∃ p ∈ paths, ∃ d, w.ReadFile p = .ok d ∧ c ∈ w.decodeCerts d := by
  induction paths generalizing ca tr with
  | nil => exact ⟨ca, by simp [caLoop], id, by simp⟩
  | cons path rest ih =>
    obtain ⟨d, hd, hne⟩ := (caFileGood_iff w path).1 (hall path (List.mem_cons_self _ _))
    obtain ⟨ca2, h1, h2, h3⟩ :=
      ih ⟨((w.decodeCerts d).foldl CertPool.addCert ca).certs⟩
        (tr ++ [IOEvent.ReadFile path]) (fun p hp => hall p (List.mem_cons_of_mem _ hp))
    refine ⟨ca2, ?_, ?_, ?_⟩
    · rw [caLoop_cons_good w path rest ca tr d hd hne, h1]
      simp
    · intro hnd
      exact h2 (nodup_foldl_addCert _ _ hnd)
    · intro c
      rw [h3 c, mem_foldl_addCert]
      constructor
      · rintro ((h | h) | ⟨p, hp, d2, hd2, hc⟩)
        · exact Or.inl h
        · exact Or.inr ⟨path, List.mem_cons_self _ _, d, hd, h⟩
        · exact Or.inr ⟨p, List.mem_cons_of_mem _ hp, d2, hd2, hc⟩
      · rintro (h | ⟨p, hp, d2, hd2, hc⟩)
        · exact Or.inl (Or.inl h)
        · rcases List.mem_cons.1 hp with rfl | hp
          · rw [hd] at hd2
            cases hd2
            exact Or.inl (Or.inr hc)
          · exact Or.inr ⟨p, hp, d2, hd2, hc⟩

/-- The loop stops at the first file that is not usable, with the error of that file,
having read the files up to and including it. -/
theorem caLoop_first_bad (w : World) (pre : List String) (p : String) (post : List String)
    (ca : CertPool) (tr : List IOEvent) (hpre : ∀ q ∈ pre, caFileGood w q = true)
    (hbad : caFileGood w p = false) :
    caLoop w (pre ++ p :: post) ca tr =
      (.error (caFileError w p), tr ++ (pre ++ [p]).map IOEvent.ReadFile) := by
  induction pre generalizing ca tr with
  | nil => simpa using caLoop_cons_bad w p post ca tr hbad
  | cons a rest ih =>
    obtain ⟨d, hd, hne⟩ := (caFileGood_iff w a).1 (hpre a (List.mem_cons_self _ _))
    rw [List.cons_append, caLoop_cons_good w a _ ca tr d hd hne,
      ih _ _ (fun q hq => hpre q (List.mem_cons_of_mem _ hq))]
    simp

/-- A list with a file that is not usable splits at the first such file. -/
theorem exists_first_bad (w : World) (paths : List String)
    (h : ∃ p ∈ paths, caFileGood w p = false) :
    ∃ pre p post, paths = pre ++ p :: post ∧ (∀ q ∈ pre, caFileGood w q = true) ∧
      caFileGood w p = false := by
  induction paths with
  | nil => simp at h
  | cons a rest ih =>
    by_cases ha : caFileGood w a = true
    · obtain ⟨p, hp, hpb⟩ := h
      rcases List.mem_cons.1 hp with rfl | hp
      · rw [ha] at hpb; cases hpb
      · obtain ⟨pre, q, post, h1, h2, h3⟩ := ih ⟨p, hp, hpb⟩
        refine ⟨a :: pre, q, post, by rw [h1]; rfl, ?_, h3⟩
        intro x hx
        rcases List.mem_cons.1 hx with rfl | hx
        · exact ha
        · exact h2 x hx
    · exact ⟨[], a, rest, rfl, by simp, by simpa using ha⟩

/-- The text of a CA error contains the path of the file. -/
theorem caFileError_mentions (w : World) (path : String) :
    mentions (caFileError w path).msg path := by
  unfold caFileError mentions
  cases h : w.ReadFile path with
  | error e =>
    refine ⟨"cannot load cert '".data, ("': " ++ e.msg).data, ?_⟩
    simp [errCannotLoad, String.data_append]
  | ok d =>
    refine ⟨"cannot process cert '".data, "': must be a PEM encoded certificate".data, ?_⟩
    simp [errCannotProcess, String.data_append]

/-! ## The two halves of `grpcOptionTLS` -/

theorem not_secured_iff (w : World) (vp : Viper) :
    ¬ secured w vp ↔
      vp.GetBool "tls" = false ∧
        HasPrefix (vp.GetString "server") w.TargetTLSPrefix = false := by
  unfold secured
  cases vp.GetBool "tls" <;> cases HasPrefix (vp.GetString "server") w.TargetTLSPrefix <;> simp

theorem plain_outcome (w : World) (vp : Viper) (h : ¬ secured w vp) :
    grpcOptionTLS w vp = ⟨some DialOption.WithInsecure, none, []⟩ := by
  obtain ⟨h1, h2⟩ := (not_secured_iff w vp).1 h
  simp [grpcOptionTLS, h1, h2]

theorem mTLS_missing (w : World) (vp : Viper) (cfg : TlsConfig) (tr : List IOEvent)
    (h : vp.GetString "tls-client-cert-file" = "" ∨ vp.GetString "tls-client-key-file" = "") :
    mTLS w vp cfg tr =
      ⟨some (DialOption.WithTransportCredentials
        { cfg with GetClientCertificate := some (getClientCertificate none) }), none, tr⟩ := by
  unfold mTLS
  rcases h with h | h <;> simp [h]

theorem mTLS_error (w : World) (vp : Viper) (cfg : TlsConfig) (tr : List IOEvent)
    (e : GoError) (hc : vp.GetString "tls-client-cert-file" ≠ "")
    (hk : vp.GetString "tls-client-key-file" ≠ "")
    (hl : w.LoadX509KeyPair (vp.GetString "tls-client-cert-file")
      (vp.GetString "tls-client-key-file") = .error e) :
    mTLS w vp cfg tr =
      ⟨none, some e, tr ++ [IOEvent.LoadX509KeyPair (vp.GetString "tls-client-cert-file")
        (vp.GetString "tls-client-key-file")]⟩ := by
  unfold mTLS
  simp [hc, hk, hl]

theorem mTLS_ok (w : World) (vp : Viper) (cfg : TlsConfig) (tr : List IOEvent)
    (c : TlsCertificate) (hc : vp.GetString "tls-client-cert-file" ≠ "")
    (hk : vp.GetString "tls-client-key-file" ≠ "")
    (hl : w.LoadX509KeyPair (vp.GetString "tls-client-cert-file")
      (vp.GetString "tls-client-key-file") = .ok c) :
    mTLS w vp cfg tr =
      ⟨some (DialOption.WithTransportCredentials
        { cfg with GetClientCertificate := some (getClientCertificate (some c)) }), none,
        tr ++ [IOEvent.LoadX509KeyPair (vp.GetString "tls-client-cert-file")
          (vp.GetString "tls-client-key-file")]⟩ := by
  unfold mTLS
  simp [hc, hk, hl]

/-- On the secured path a CA file that is not usable ends the call. -/
theorem secured_bad_outcome (w : World) (vp : Viper) (hsec : secured w vp)
    (pre : List String) (p : String) (post : List String)
    (hsplit : vp.GetStringSlice "tls-ca-cert-files" = pre ++ p :: post)
    (hpre : ∀ q ∈ pre, caFileGood w q = true) (hbad : caFileGood w p = false) :
    grpcOptionTLS w vp =
      ⟨none, some (caFileError w p), (pre ++ [p]).map IOEvent.ReadFile⟩ := by
  have hcond : (!(vp.GetBool "tls" || HasPrefix (vp.GetString "server") w.TargetTLSPrefix))
      = false := by
    unfold secured at hsec
    rcases hsec with h | h <;> simp [h]
  have hloop := caLoop_first_bad w pre p post NewCertPool [] hpre hbad
  simp only [grpcOptionTLS, hcond, hsplit, hloop]
  simp

/-- On the secured path with usable CA files the call continues with the key pair,
the trust pool being unset for an empty list and the pool of the files otherwise. -/
theorem secured_good_outcome (w : World) (vp : Viper) (hsec : secured w vp)
    (hall : ∀ p ∈ vp.GetStringSlice "tls-ca-cert-files", caFileGood w p = true) :
    ∃ roots : Option CertPool,
      grpcOptionTLS w vp =
        mTLS w vp ⟨vp.GetBool "tls-allow-insecure", vp.GetString "tls-server-name", roots, none⟩
          ((vp.GetStringSlice "tls-ca-cert-files").map IOEvent.ReadFile) ∧
      (vp.GetStringSlice "tls-ca-cert-files" = [] → roots = none) ∧
      (vp.GetStringSlice "tls-ca-cert-files" ≠ [] →
        ∃ pool, roots = some pool ∧ pool.certs.Nodup) ∧
      ∀ c, (∃ pool, roots = some pool ∧ c ∈ pool.certs) ↔
        ∃ p ∈ vp.GetStringSlice "tls-ca-cert-files", ∃ d,
          w.ReadFile p = .ok d ∧ c ∈ w.decodeCerts d := by
  have hcond : (!(vp.GetBool "tls" || HasPrefix (vp.GetString "server") w.TargetTLSPrefix))
      = false := by
    unfold secured at hsec
    rcases hsec with h | h <;> simp [h]
  cases hfiles : vp.GetStringSlice "tls-ca-cert-files" with
  | nil =>
    refine ⟨none, ?_, fun _ => rfl, fun h => absurd rfl h, ?_⟩
    · simp [grpcOptionTLS, hcond, hfiles]
    · intro c; simp
  | cons a rest =>
    rw [hfiles] at hall
    obtain ⟨ca2, h1, h2, h3⟩ := caLoop_all_good w (a :: rest) NewCertPool [] hall
    refine ⟨some ca2, ?_, fun h => (by cases h), fun _ => ⟨ca2, rfl, h2 (by simp [NewCertPool])⟩, ?_⟩
    · simp only [grpcOptionTLS, hcond, hfiles, h1]
      simp
    · intro c
      constructor
      · rintro ⟨pool, hp, hc⟩
        cases hp
        rcases (h3 c).1 hc with h | h
        · simp [NewCertPool] at h
        · exact h
      · intro h
        exact ⟨ca2, rfl, (h3 c).2 (Or.inr h)⟩

/-- Either every CA file is usable or the list splits at the first one that is not. -/
theorem good_or_first_bad (w : World) (paths : List String) :
    (∀ p ∈ paths, caFileGood w p = true) ∨
      ∃ pre p post, paths = pre ++ p :: post ∧ (∀ q ∈ pre, caFileGood w q = true) ∧
        caFileGood w p = false := by
  by_cases h : ∀ p ∈ paths, caFileGood w p = true
  · exact Or.inl h
  · right
    apply exists_first_bad
    push_neg at h
    obtain ⟨p, hp, hb⟩ := h
    exact ⟨p, hp, by simpa using hb⟩

/-! ## C1: the plaintext path -/

/-- C1: when the `tls` flag is false and the `server` address does not start with the
secure prefix, `grpcOptionTLS` returns the plaintext option with a nil error and makes
no file system call at all (no CA file is read, no key pair is loaded), whatever the
CA list and the client certificate and key paths are. -/
theorem grpcOptionTLS_plaintext (w : World) (vp : Viper)
    (htls : vp.GetBool "tls" = false)
    (hpfx : HasPrefix (vp.GetString "server") w.TargetTLSPrefix = false) :
    (grpcOptionTLS w vp).opt = some DialOption.WithInsecure ∧
      (grpcOptionTLS w vp).err = none ∧
      (grpcOptionTLS w vp).trace = [] := by
  have h := plain_outcome w vp ((not_secured_iff w vp).2 ⟨htls, hpfx⟩)
  rw [h]
  exact ⟨rfl, rfl, rfl⟩

theorem grpcOptionTLS_plaintext_witness :
    vpPlain.GetStringSlice "tls-ca-cert-files" = ["missing.pem"] ∧
      vpPlain.GetString "tls-client-cert-file" = "client.crt" ∧
      vpPlain.GetString "tls-client-key-file" = "client.key" ∧
      ((grpcOptionTLS sampleWorld vpPlain).opt = some DialOption.WithInsecure ∧
        (grpcOptionTLS sampleWorld vpPlain).err = none ∧
        (grpcOptionTLS sampleWorld vpPlain).trace = []) :=
  ⟨by decide, by decide, by decide,
    grpcOptionTLS_plaintext sampleWorld vpPlain (by decide) (by decide)⟩

/-! ## C2: either trigger selects the secured path -/

/-- C2, as stated, fails: with the `tls` flag set and a CA file that is missing the call
returns no option at all, hence no transport credentials option. -/
theorem secured_without_option :
    vpMissingCA.GetBool "tls" = true ∧
      (grpcOptionTLS sampleWorld vpMissingCA).opt = none ∧
      (grpcOptionTLS sampleWorld vpMissingCA).err =
        some ⟨"cannot load cert 'missing.pem': open missing.pem: no such file or directory"⟩ := by
  refine ⟨by decide, rfl, by decide⟩

/-- C2 (amended): when the `tls` flag is true, and when it is false but the `server`
address starts with the secure prefix, `grpcOptionTLS` never returns the plaintext
option; it returns a transport credentials option with a nil error when every CA file
is usable and the key pair step goes through, and no option with an error otherwise;
with `tls` true the outcome is the same for every address. -/
theorem grpcOptionTLS_secured_posture (w : World) (vp : Viper)
    (h : vp.GetBool "tls" = true ∨
      (vp.GetBool "tls" = false ∧
        HasPrefix (vp.GetString "server") w.TargetTLSPrefix = true)) :
    (grpcOptionTLS w vp).opt ≠ some DialOption.WithInsecure ∧
      ((∀ p ∈ vp.GetStringSlice "tls-ca-cert-files", caFileGood w p = true) →
        keyPairOk w vp →
        ∃ cfg, (grpcOptionTLS w vp).opt = some (DialOption.WithTransportCredentials cfg) ∧
          (grpcOptionTLS w vp).err = none) ∧
      (¬ ((∀ p ∈ vp.GetStringSlice "tls-ca-cert-files", caFileGood w p = true) ∧
          keyPairOk w vp) →
        (grpcOptionTLS w vp).opt = none ∧ ∃ e, (grpcOptionTLS w vp).err = some e) ∧
      (vp.GetBool "tls" = true →
        ∀ addr, grpcOptionTLS w (vp.withServer addr) = grpcOptionTLS w vp) := by
  have hsec : secured w vp := by
    rcases h with h | ⟨_, h⟩
    · exact Or.inl h
    · exact Or.inr h
  have key : (¬ ((∀ p ∈ vp.GetStringSlice "tls-ca-cert-files", caFileGood w p = true) ∧
        keyPairOk w vp) →
        (grpcOptionTLS w vp).opt = none ∧ ∃ e, (grpcOptionTLS w vp).err = some e) ∧
      ((∀ p ∈ vp.GetStringSlice "tls-ca-cert-files", caFileGood w p = true) →
        keyPairOk w vp →
        ∃ cfg, (grpcOptionTLS w vp).opt = some (DialOption.WithTransportCredentials cfg) ∧
          (grpcOptionTLS w vp).err = none) := by
    rcases good_or_first_bad w (vp.GetStringSlice "tls-ca-cert-files") with
      hall | ⟨pre, p, post, hsplit, hpre, hbad⟩
    · obtain ⟨roots, hrun, -, -, -⟩ := secured_good_outcome w vp hsec hall
      by_cases hboth : vp.GetString "tls-client-cert-file" ≠ "" ∧
          vp.GetString "tls-client-key-file" ≠ ""
      · cases hl : w.LoadX509KeyPair (vp.GetString "tls-client-cert-file")
            (vp.GetString "tls-client-key-file") with
        | error e =>
          rw [hrun, mTLS_error w vp _ _ e hboth.1 hboth.2 hl]
          refine ⟨fun _ => ⟨rfl, e, rfl⟩, fun _ hk => ?_⟩
          obtain ⟨c, hc⟩ := hk hboth
          rw [hl] at hc
          cases hc
        | ok c =>
          rw [hrun, mTLS_ok w vp _ _ c hboth.1 hboth.2 hl]
          refine ⟨fun hn => absurd ⟨hall, fun _ => ⟨c, hl⟩⟩ hn, fun _ _ => ⟨_, rfl, rfl⟩⟩
      · have hmiss : vp.GetString "tls-client-cert-file" = "" ∨
            vp.GetString "tls-client-key-file" = "" := by
          by_contra hcon
          push_neg at hcon
          exact hboth hcon
        rw [hrun, mTLS_missing w vp _ _ hmiss]
        refine ⟨fun hn => absurd ⟨hall, fun hb => absurd hb hboth⟩ hn, fun _ _ => ⟨_, rfl, rfl⟩⟩
    · rw [secured_bad_outcome w vp hsec pre p post hsplit hpre hbad]
      refine ⟨fun _ => ⟨rfl, _, rfl⟩, fun hall _ => ?_⟩
      have := hall p (by rw [hsplit]; simp)
      rw [hbad] at this
      cases this
  refine ⟨?_, key.2, key.1, ?_⟩
  · by_cases hc : (∀ p ∈ vp.GetStringSlice "tls-ca-cert-files", caFileGood w p = true) ∧
        keyPairOk w vp
    · obtain ⟨cfg, h1, -⟩ := key.2 hc.1 hc.2
      rw [h1]
      intro hcon
      cases hcon
    · rw [(key.1 hc).1]
      intro hcon
      cases hcon
  · intro htls addr
    have e1 : ∀ k, k ≠ "server" → (vp.withServer addr).GetString k = vp.GetString k := by
      intro k hk
      simp [Viper.withServer, hk]
    have e2 : (vp.withServer addr).GetBool = vp.GetBool := rfl
    have e3 : (vp.withServer addr).GetStringSlice = vp.GetStringSlice := rfl
    simp only [grpcOptionTLS, mTLS, e2, e3, htls, e1 "tls-server-name" (by decide),
      e1 "tls-client-cert-file" (by decide), e1 "tls-client-key-file" (by decide),
      Bool.true_or]

theorem grpcOptionTLS_secured_posture_witness :
    (vpPrefixOnly.GetBool "tls" = true ∨
      (vpPrefixOnly.GetBool "tls" = false ∧
        HasPrefix (vpPrefixOnly.GetString "server") sampleWorld.TargetTLSPrefix = true)) ∧
      (grpcOptionTLS sampleWorld vpPrefixOnly).opt ≠ some DialOption.WithInsecure ∧
      (grpcOptionTLS sampleWorld vpPrefixOnly).err = none :=
  have h := grpcOptionTLS_secured_posture sampleWorld vpPrefixOnly (by decide)
  ⟨by decide, h.1, by
    obtain ⟨_, _, h2⟩ := h.2.1 (by decide) (fun hb => absurd hb (by decide))
    exact h2⟩

/-! ## C3: a missing client identity does not fail the call -/

/-- C3: on the secured path, when the client certificate path or the client key path is
empty, `grpcOptionTLS` loads no key pair and any error it returns is the error of a CA
file; when every CA file is usable it returns a transport credentials option with a
nil error whose `GetClientCertificate` answers every request with no certificate and
the error "mTLS client certificate requested, but not provided". -/
theorem grpcOptionTLS_identity_missing (w : World) (vp : Viper) (hsec : secured w vp)
    (hmiss : vp.GetString "tls-client-cert-file" = "" ∨
      vp.GetString "tls-client-key-file" = "") :
    (∀ a b, IOEvent.LoadX509KeyPair a b ∉ (grpcOptionTLS w vp).trace) ∧
      (∀ e, (grpcOptionTLS w vp).err = some e →
        ∃ p ∈ vp.GetStringSlice "tls-ca-cert-files",
          caFileGood w p = false ∧ e = caFileError w p) ∧
      ((∀ p ∈ vp.GetStringSlice "tls-ca-cert-files", caFileGood w p = true) →
        ∃ cfg f,
          (grpcOptionTLS w vp).opt = some (DialOption.WithTransportCredentials cfg) ∧
          (grpcOptionTLS w vp).err = none ∧
          cfg.GetClientCertificate = some f ∧
          ∀ req, f req =
            (none, some ⟨"mTLS client certificate requested, but not provided"⟩)) := by
  rcases good_or_first_bad w (vp.GetStringSlice "tls-ca-cert-files") with
    hall | ⟨pre, p, post, hsplit, hpre, hbad⟩
  · obtain ⟨roots, hrun, -, -, -⟩ := secured_good_outcome w vp hsec hall
    rw [hrun, mTLS_missing w vp _ _ hmiss]
    refine ⟨?_, ?_, ?_⟩
    · intro a b hmem
      simp at hmem
    · intro e he
      simp at he
    · intro _
      exact ⟨_, getClientCertificate none, rfl, rfl, rfl, fun _ => rfl⟩
  · rw [secured_bad_outcome w vp hsec pre p post hsplit hpre hbad]
    refine ⟨?_, ?_, ?_⟩
    · intro a b hmem
      simp at hmem
    · intro e he
      simp only [Option.some.injEq] at he
      exact ⟨p, by rw [hsplit]; simp, hbad, he.symm⟩
    · intro hall
      have := hall p (by rw [hsplit]; simp)
      rw [hbad] at this
      cases this

theorem grpcOptionTLS_identity_missing_witness :
    secured sampleWorld vpCertOnly ∧
      vpCertOnly.GetString "tls-client-cert-file" = "client.crt" ∧
      vpCertOnly.GetString "tls-client-key-file" = "" ∧
      (grpcOptionTLS sampleWorld vpCertOnly).err = none ∧
      IOEvent.LoadX509KeyPair "client.crt" "" ∉ (grpcOptionTLS sampleWorld vpCertOnly).trace :=
  have h := grpcOptionTLS_identity_missing sampleWorld vpCertOnly (by decide)
    (Or.inr (by decide))
  ⟨by decide, by decide, by decide, by
    obtain ⟨_, _, _, h2, _⟩ := h.2.2 (by decide)
    exact h2, h.1 _ _⟩

/-! ## C4: a CA file that cannot be used -/

theorem load_ne_process (p q : String) (e : GoError) :
    errCannotLoad p e ≠ errCannotProcess q := by
  intro h
  have h2 := congrArg (fun x => x.msg.data) h
  have a1 : "cannot load cert '".data =
      ['c', 'a', 'n', 'n', 'o', 't', ' ', 'l', 'o', 'a', 'd', ' ', 'c', 'e', 'r', 't', ' ',
        '\''] := by decide
  have a2 : "cannot process cert '".data =
      ['c', 'a', 'n', 'n', 'o', 't', ' ', 'p', 'r', 'o', 'c', 'e', 's', 's', ' ', 'c', 'e',
        'r', 't', ' ', '\''] := by decide
  simp [errCannotLoad, errCannotProcess, String.data_append, a1, a2] at h2

/-- C4: on the secured path, when some file of `tls-ca-cert-files` cannot be read or
yields no certificate, `grpcOptionTLS` returns no option and an error for the first such
file in list order; the message contains the path of that file and reads
"cannot load cert '<path>': <cause>" for a file that cannot be read and
"cannot process cert '<path>': must be a PEM encoded certificate" for a file without a
certificate, and the two messages never coincide. -/
theorem grpcOptionTLS_ca_failure (w : World) (vp : Viper) (hsec : secured w vp)
    (hbad : ∃ p ∈ vp.GetStringSlice "tls-ca-cert-files", caFileGood w p = false) :
    ∃ pre p post,
      vp.GetStringSlice "tls-ca-cert-files" = pre ++ p :: post ∧
      (∀ q ∈ pre, caFileGood w q = true) ∧
      caFileGood w p = false ∧
      (grpcOptionTLS w vp).opt = none ∧
      (∃ e, (grpcOptionTLS w vp).err = some e ∧ mentions e.msg p) ∧
      (∀ cause, w.ReadFile p = .error cause →
        (grpcOptionTLS w vp).err =
          some ⟨"cannot load cert '" ++ p ++ "': " ++ cause.msg⟩) ∧
      (∀ d, w.ReadFile p = .ok d →
        (grpcOptionTLS w vp).err =
          some ⟨"cannot process cert '" ++ p ++ "': must be a PEM encoded certificate"⟩) ∧
      (∀ (q r : String) (cause : GoError),
        (⟨"cannot load cert '" ++ q ++ "': " ++ cause.msg⟩ : GoError) ≠
          ⟨"cannot process cert '" ++ r ++ "': must be a PEM encoded certificate"⟩) := by
  obtain ⟨pre, p, post, hsplit, hpre, hp⟩ := exists_first_bad w _ hbad
  refine ⟨pre, p, post, hsplit, hpre, hp, ?_⟩
  rw [secured_bad_outcome w vp hsec pre p post hsplit hpre hp]
  refine ⟨rfl, ⟨_, rfl, caFileError_mentions w p⟩, ?_, ?_, ?_⟩
  · intro cause hc
    simp [caFileError, hc, errCannotLoad]
  · intro d hd
    simp [caFileError, hd, errCannotProcess]
  · intro q r cause
    exact load_ne_process q r cause

theorem grpcOptionTLS_ca_failure_witness :
    secured sampleWorld vpJunkCA ∧
      vpJunkCA.GetStringSlice "tls-ca-cert-files" = ["ca3.pem", "junk.pem", "missing.pem"] ∧
      caFileGood sampleWorld "junk.pem" = false ∧
      (grpcOptionTLS sampleWorld vpJunkCA).opt = none :=
  ⟨by decide, by decide, by decide, by
    obtain ⟨_, _, _, _, _, _, h4, _⟩ :=
      grpcOptionTLS_ca_failure sampleWorld vpJunkCA (by decide)
        ⟨"junk.pem", by decide, by decide⟩
    exact h4⟩

/-! ## C5: the client key pair is loaded during resolution -/

/-- C5, as stated, fails: with both client paths set and a CA file that holds no
certificate, the call returns at the CA file; the key pair is not loaded, and although
the loader would fail for this pair, the error returned is the CA error, not the
loader's. -/
theorem key_pair_skipped_after_ca_failure :
    secured sampleWorld vpJunkBadPair ∧
      vpJunkBadPair.GetString "tls-client-cert-file" = "bad.crt" ∧
      vpJunkBadPair.GetString "tls-client-key-file" = "bad.key" ∧
      sampleWorld.LoadX509KeyPair "bad.crt" "bad.key" =
        .error ⟨"x509: malformed certificate"⟩ ∧
      IOEvent.LoadX509KeyPair "bad.crt" "bad.key" ∉
        (grpcOptionTLS sampleWorld vpJunkBadPair).trace ∧
      (grpcOptionTLS sampleWorld vpJunkBadPair).trace = [IOEvent.ReadFile "junk.pem"] ∧
      (grpcOptionTLS sampleWorld vpJunkBadPair).err =
        some ⟨"cannot process cert 'junk.pem': must be a PEM encoded certificate"⟩ ∧
      (grpcOptionTLS sampleWorld vpJunkBadPair).err ≠
        some ⟨"x509: malformed certificate"⟩ := by
  refine ⟨by decide, by decide, by decide, rfl, by decide, by decide, by decide, by decide⟩

/-- C5 (amended): on the secured path with both the client certificate path and the
client key path non-empty, when every file of `tls-ca-cert-files` is usable the key pair
is loaded during the call, as its last file system call; if that load fails the call
returns no option and the error of the loader, unchanged; if it succeeds the call
returns a transport credentials option with a nil error whose `GetClientCertificate`
answers every request with the loaded identity and a nil error.  When some CA file is
not usable the key pair is not loaded at all and the call returns no option and the
error of the first such file. -/
theorem grpcOptionTLS_key_pair_after_ca (w : World) (vp : Viper) (hsec : secured w vp)
    (hc : vp.GetString "tls-client-cert-file" ≠ "")
    (hk : vp.GetString "tls-client-key-file" ≠ "") :
    ((∀ p ∈ vp.GetStringSlice "tls-ca-cert-files", caFileGood w p = true) →
      (grpcOptionTLS w vp).trace =
        (vp.GetStringSlice "tls-ca-cert-files").map IOEvent.ReadFile ++
          [IOEvent.LoadX509KeyPair (vp.GetString "tls-client-cert-file")
            (vp.GetString "tls-client-key-file")] ∧
      (∀ e, w.LoadX509KeyPair (vp.GetString "tls-client-cert-file")
          (vp.GetString "tls-client-key-file") = .error e →
        (grpcOptionTLS w vp).opt = none ∧ (grpcOptionTLS w vp).err = some e) ∧
      (∀ c, w.LoadX509KeyPair (vp.GetString "tls-client-cert-file")
          (vp.GetString "tls-client-key-file") = .ok c →
        ∃ cfg f,
          (grpcOptionTLS w vp).opt = some (DialOption.WithTransportCredentials cfg) ∧
          (grpcOptionTLS w vp).err = none ∧
          cfg.GetClientCertificate = some f ∧
          ∀ req, f req = (some c, none))) ∧
      ((∃ p ∈ vp.GetStringSlice "tls-ca-cert-files", caFileGood w p = false) →
        (∀ a b, IOEvent.LoadX509KeyPair a b ∉ (grpcOptionTLS w vp).trace) ∧
        (grpcOptionTLS w vp).opt = none ∧
        ∃ pre p post,
          vp.GetStringSlice "tls-ca-cert-files" = pre ++ p :: post ∧
          (∀ q ∈ pre, caFileGood w q = true) ∧ caFileGood w p = false ∧
          (grpcOptionTLS w vp).err = some (caFileError w p)) := by
  constructor
  · intro hall
    obtain ⟨roots, hrun, -, -, -⟩ := secured_good_outcome w vp hsec hall
    cases hl : w.LoadX509KeyPair (vp.GetString "tls-client-cert-file")
        (vp.GetString "tls-client-key-file") with
    | error e =>
      rw [hrun, mTLS_error w vp _ _ e hc hk hl]
      refine ⟨rfl, ?_, ?_⟩
      · intro e2 he2
        cases he2
        exact ⟨rfl, rfl⟩
      · intro c hcon
        cases hcon
    | ok c =>
      rw [hrun, mTLS_ok w vp _ _ c hc hk hl]
      refine ⟨rfl, ?_, ?_⟩
      · intro e hcon
        cases hcon
      · intro c2 hc2
        cases hc2
        exact ⟨_, getClientCertificate (some c), rfl, rfl, rfl, fun _ => rfl⟩
  · intro hbad
    obtain ⟨pre, p, post, hsplit, hpre, hp⟩ := exists_first_bad w _ hbad
    rw [secured_bad_outcome w vp hsec pre p post hsplit hpre hp]
    refine ⟨?_, rfl, pre, p, post, hsplit, hpre, hp, rfl⟩
    intro a b hmem
    simp at hmem

theorem grpcOptionTLS_key_pair_after_ca_witness :
    secured sampleWorld vpMutual ∧
      vpMutual.GetString "tls-client-cert-file" ≠ "" ∧
      vpMutual.GetString "tls-client-key-file" ≠ "" ∧
      (grpcOptionTLS sampleWorld vpMutual).trace =
        (vpMutual.GetStringSlice "tls-ca-cert-files").map IOEvent.ReadFile ++
          [IOEvent.LoadX509KeyPair (vpMutual.GetString "tls-client-cert-file")
            (vpMutual.GetString "tls-client-key-file")] :=
  ⟨by decide, by decide, by decide,
    ((grpcOptionTLS_key_pair_after_ca sampleWorld vpMutual (by decide) (by decide)
      (by decide)).1 (by decide)).1⟩

/-! ## C6: the trust pool of the CA files -/

/-- C6: on the secured path, when every file of `tls-ca-cert-files` is readable and
yields at least one certificate, the call (its key pair step going through) returns a
configuration whose `RootCAs` holds exactly the certificates parsed from the listed
files: a certificate is in the pool if and only if it was parsed from one of the files;
for a non-empty list the pool is one allocated pool without repetition. -/
theorem grpcOptionTLS_trust_pool (w : World) (vp : Viper) (hsec : secured w vp)
    (hall : ∀ p ∈ vp.GetStringSlice "tls-ca-cert-files", caFileGood w p = true) :
    (keyPairOk w vp →
      ∃ cfg, (grpcOptionTLS w vp).opt = some (DialOption.WithTransportCredentials cfg) ∧
        (grpcOptionTLS w vp).err = none) ∧
      ∀ cfg, (grpcOptionTLS w vp).opt = some (DialOption.WithTransportCredentials cfg) →
        (∀ c, (∃ pool, cfg.RootCAs = some pool ∧ c ∈ pool.certs) ↔
          ∃ p ∈ vp.GetStringSlice "tls-ca-cert-files", ∃ d,
            w.ReadFile p = .ok d ∧ c ∈ w.decodeCerts d) ∧
        (vp.GetStringSlice "tls-ca-cert-files" ≠ [] →
          ∃ pool, cfg.RootCAs = some pool ∧ pool.certs.Nodup) := by
  obtain ⟨roots, hrun, -, hne, hmem⟩ := secured_good_outcome w vp hsec hall
  by_cases hboth : vp.GetString "tls-client-cert-file" ≠ "" ∧
      vp.GetString "tls-client-key-file" ≠ ""
  · cases hl : w.LoadX509KeyPair (vp.GetString "tls-client-cert-file")
        (vp.GetString "tls-client-key-file") with
    | error e =>
      rw [hrun, mTLS_error w vp _ _ e hboth.1 hboth.2 hl]
      refine ⟨fun hk => ?_, fun cfg hcfg => by cases hcfg⟩
      obtain ⟨c, hc⟩ := hk hboth
      rw [hl] at hc
      cases hc
    | ok c =>
      rw [hrun, mTLS_ok w vp _ _ c hboth.1 hboth.2 hl]
      refine ⟨fun _ => ⟨_, rfl, rfl⟩, fun cfg hcfg => ?_⟩
      simp only [Option.some.injEq, DialOption.WithTransportCredentials.injEq] at hcfg
      subst hcfg
      exact ⟨hmem, hne⟩
  · have hmiss : vp.GetString "tls-client-cert-file" = "" ∨
        vp.GetString "tls-client-key-file" = "" := by
      by_contra hcon
      push_neg at hcon
      exact hboth hcon
    rw [hrun, mTLS_missing w vp _ _ hmiss]
    refine ⟨fun _ => ⟨_, rfl, rfl⟩, fun cfg hcfg => ?_⟩
    simp only [Option.some.injEq, DialOption.WithTransportCredentials.injEq] at hcfg
    subst hcfg
    exact ⟨hmem, hne⟩

theorem grpcOptionTLS_trust_pool_witness :
    secured sampleWorld vpMutual ∧
      (∀ p ∈ vpMutual.GetStringSlice "tls-ca-cert-files", caFileGood sampleWorld p = true) ∧
      ∃ cfg pool,
        (grpcOptionTLS sampleWorld vpMutual).opt =
          some (DialOption.WithTransportCredentials cfg) ∧
        cfg.RootCAs = some pool ∧
        (⟨"A"⟩ : Certificate) ∈ pool.certs ∧ (⟨"B"⟩ : Certificate) ∈ pool.certs ∧
        (⟨"C"⟩ : Certificate) ∈ pool.certs ∧ (⟨"junk"⟩ : Certificate) ∉ pool.certs := by
  have h := grpcOptionTLS_trust_pool sampleWorld vpMutual (by decide) (by decide)
  obtain ⟨cfg, hopt, -⟩ := h.1 (fun _ => ⟨⟨["leaf"], "key"⟩, rfl⟩)
  obtain ⟨hmem, hne⟩ := h.2 cfg hopt
  obtain ⟨pool, hpool, -⟩ := hne (by decide)
  have hin : ∀ c : Certificate,
      (∃ p ∈ vpMutual.GetStringSlice "tls-ca-cert-files", ∃ d,
        sampleWorld.ReadFile p = .ok d ∧ c ∈ sampleWorld.decodeCerts d) → c ∈ pool.certs := by
    intro c hc
    obtain ⟨pool2, hp2, hc2⟩ := (hmem c).2 hc
    rw [hpool] at hp2
    cases hp2
    exact hc2
  refine ⟨by decide, by decide, cfg, pool, hopt, hpool, ?_, ?_, ?_, ?_⟩
  · exact hin _ ⟨"ca3.pem", by decide, "A B C", rfl, by decide⟩
  · exact hin _ ⟨"ca3.pem", by decide, "A B C", rfl, by decide⟩
  · exact hin _ ⟨"ca3.pem", by decide, "A B C", rfl, by decide⟩
  · intro hj
    obtain ⟨p, hp, d, hd, hc⟩ := (hmem ⟨"junk"⟩).1 ⟨pool, hpool, hj⟩
    have hp2 : p = "ca3.pem" ∨ p = "ca1.pem" := by
      have : p ∈ ["ca3.pem", "ca1.pem"] := hp
      simpa using this
    rcases hp2 with rfl | rfl
    · have : d = "A B C" := by
        have h0 : sampleWorld.ReadFile "ca3.pem" = .ok "A B C" := rfl
        rw [h0] at hd
        cases hd
        rfl
      subst this
      revert hc
      decide
    · have : d = "D" := by
        have h0 : sampleWorld.ReadFile "ca1.pem" = .ok "D" := rfl
        rw [h0] at hd
        cases hd
        rfl
      subst this
      revert hc
      decide

/-! ## C7: no CA file configured -/

/-- C7: on the secured path with an empty `tls-ca-cert-files`, no file is read, the only
error the call can return is the error of the key pair loader, the call returns a
configuration when the key pair step goes through, and `RootCAs` of that configuration
is unset (nil), not an allocated pool. -/
theorem grpcOptionTLS_no_ca (w : World) (vp : Viper) (hsec : secured w vp)
    (hnil : vp.GetStringSlice "tls-ca-cert-files" = []) :
    (∀ p, IOEvent.ReadFile p ∉ (grpcOptionTLS w vp).trace) ∧
      (∀ e, (grpcOptionTLS w vp).err = some e →
        vp.GetString "tls-client-cert-file" ≠ "" ∧ vp.GetString "tls-client-key-file" ≠ "" ∧
        w.LoadX509KeyPair (vp.GetString "tls-client-cert-file")
          (vp.GetString "tls-client-key-file") = .error e) ∧
      (keyPairOk w vp →
        ∃ cfg, (grpcOptionTLS w vp).opt = some (DialOption.WithTransportCredentials cfg) ∧
          (grpcOptionTLS w vp).err = none) ∧
      (∀ cfg, (grpcOptionTLS w vp).opt = some (DialOption.WithTransportCredentials cfg) →
        cfg.RootCAs = none) := by
  have hall : ∀ p ∈ vp.GetStringSlice "tls-ca-cert-files", caFileGood w p = true := by
    rw [hnil]
    intro p hp
    cases hp
  obtain ⟨roots, hrun, hroots, -, -⟩ := secured_good_outcome w vp hsec hall
  have hr := hroots hnil
  subst hr
  rw [hnil] at hrun
  by_cases hboth : vp.GetString "tls-client-cert-file" ≠ "" ∧
      vp.GetString "tls-client-key-file" ≠ ""
  · cases hl : w.LoadX509KeyPair (vp.GetString "tls-client-cert-file")
        (vp.GetString "tls-client-key-file") with
    | error e =>
      rw [hrun, mTLS_error w vp _ _ e hboth.1 hboth.2 hl]
      refine ⟨fun p hp => (by simp at hp), ?_, ?_, fun cfg hcfg => (by cases hcfg)⟩
      · intro e2 he2
        cases he2
        exact ⟨hboth.1, hboth.2, rfl⟩
      · intro hk
        obtain ⟨c, hc⟩ := hk hboth
        rw [hl] at hc
        cases hc
    | ok c =>
      rw [hrun, mTLS_ok w vp _ _ c hboth.1 hboth.2 hl]
      refine ⟨fun p hp => (by simp at hp), fun e he => (by cases he), fun _ => ⟨_, rfl, rfl⟩, ?_⟩
      intro cfg hcfg
      simp only [Option.some.injEq, DialOption.WithTransportCredentials.injEq] at hcfg
      subst hcfg
      rfl
  · have hmiss : vp.GetString "tls-client-cert-file" = "" ∨
        vp.GetString "tls-client-key-file" = "" := by
      by_contra hcon
      push_neg at hcon
      exact hboth hcon
    rw [hrun, mTLS_missing w vp _ _ hmiss]
    refine ⟨fun p hp => (by simp at hp), fun e he => (by cases he), fun _ => ⟨_, rfl, rfl⟩, ?_⟩
    intro cfg hcfg
    simp only [Option.some.injEq, DialOption.WithTransportCredentials.injEq] at hcfg
    subst hcfg
    rfl

theorem grpcOptionTLS_no_ca_witness :
    secured sampleWorld vpNoCA ∧
      vpNoCA.GetStringSlice "tls-ca-cert-files" = [] ∧
      (grpcOptionTLS sampleWorld vpNoCA).err = none ∧
      IOEvent.ReadFile "ca3.pem" ∉ (grpcOptionTLS sampleWorld vpNoCA).trace :=
  have h := grpcOptionTLS_no_ca sampleWorld vpNoCA (by decide) (by decide)
  ⟨by decide, by decide, by
    obtain ⟨_, _, h2⟩ := h.2.2.1 (fun hb => absurd hb (by decide))
    exact h2, h.1 _⟩

/-! ## The outcomes of the secured path -/

/-- On the secured path the call ends in one of three ways: a CA file is not usable,
the key pair does not load, or a configuration is returned. -/
theorem secured_outcome (w : World) (vp : Viper) (hsec : secured w vp) :
    (∃ pre p post tr,
        vp.GetStringSlice "tls-ca-cert-files" = pre ++ p :: post ∧
        (∀ q ∈ pre, caFileGood w q = true) ∧ caFileGood w p = false ∧
        (∀ a b, IOEvent.LoadX509KeyPair a b ∉ tr) ∧
        grpcOptionTLS w vp = ⟨none, some (caFileError w p), tr⟩) ∨
      (∃ e tr,
        (∀ p ∈ vp.GetStringSlice "tls-ca-cert-files", caFileGood w p = true) ∧
        vp.GetString "tls-client-cert-file" ≠ "" ∧
        vp.GetString "tls-client-key-file" ≠ "" ∧
        w.LoadX509KeyPair (vp.GetString "tls-client-cert-file")
          (vp.GetString "tls-client-key-file") = .error e ∧
        grpcOptionTLS w vp = ⟨none, some e, tr⟩) ∨
      (∃ roots cert tr,
        (∀ p ∈ vp.GetStringSlice "tls-ca-cert-files", caFileGood w p = true) ∧
        keyPairOk w vp ∧
        grpcOptionTLS w vp =
          ⟨some (DialOption.WithTransportCredentials
            ⟨vp.GetBool "tls-allow-insecure", vp.GetString "tls-server-name", roots,
              some (getClientCertificate cert)⟩), none, tr⟩) := by
  rcases good_or_first_bad w (vp.GetStringSlice "tls-ca-cert-files") with
    hall | ⟨pre, p, post, hsplit, hpre, hbad⟩
  · obtain ⟨roots, hrun, -, -, -⟩ := secured_good_outcome w vp hsec hall
    right
    by_cases hboth : vp.GetString "tls-client-cert-file" ≠ "" ∧
        vp.GetString "tls-client-key-file" ≠ ""
    · cases hl : w.LoadX509KeyPair (vp.GetString "tls-client-cert-file")
          (vp.GetString "tls-client-key-file") with
      | error e =>
        left
        exact ⟨e, _, hall, hboth.1, hboth.2, rfl,
          by rw [hrun, mTLS_error w vp _ _ e hboth.1 hboth.2 hl]⟩
      | ok c =>
        right
        exact ⟨roots, some c, _, hall, fun _ => ⟨c, hl⟩,
          by rw [hrun, mTLS_ok w vp _ _ c hboth.1 hboth.2 hl]⟩
    · have hmiss : vp.GetString "tls-client-cert-file" = "" ∨
          vp.GetString "tls-client-key-file" = "" := by
        by_contra hcon
        push_neg at hcon
        exact hboth hcon
      right
      exact ⟨roots, none, _, hall, fun hb => absurd hb hboth,
        by rw [hrun, mTLS_missing w vp _ _ hmiss]⟩
  · left
    refine ⟨pre, p, post, _, hsplit, hpre, hbad, ?_,
      secured_bad_outcome w vp hsec pre p post hsplit hpre hbad⟩
    intro a b hmem
    simp at hmem

/-! ## C8: what the error messages name -/

/-- C8, as stated, fails: a key pair that does not load is reported with the text of the
loader alone, which contains neither of the two paths nor any configuration key. -/
theorem key_pair_error_names_nothing :
    vpBadPair.GetString "tls-client-cert-file" = "bad.crt" ∧
      vpBadPair.GetString "tls-client-key-file" = "bad.key" ∧
      (grpcOptionTLS sampleWorld vpBadPair).err = some ⟨"x509: malformed certificate"⟩ ∧
      ¬ mentions "x509: malformed certificate" "bad.crt" ∧
      ¬ mentions "x509: malformed certificate" "bad.key" ∧
      ¬ mentions "x509: malformed certificate" "tls-client-cert-file" ∧
      ¬ mentions "x509: malformed certificate" "tls-client-key-file" ∧
      ¬ mentions "x509: malformed certificate" "tls-ca-cert-files" ∧
      ¬ mentions "x509: malformed certificate" "tls-server-name" ∧
      ¬ mentions "x509: malformed certificate" "tls-allow-insecure" ∧
      ¬ mentions "x509: malformed certificate" "tls" ∧
      ¬ mentions "x509: malformed certificate" "server" := by
  decide

/-- C8 (amended): an error returned by `grpcOptionTLS` is either the error of a CA file
that cannot be read or holds no certificate, and then its message contains the path of
that file, or the error of the key pair loader for the configured certificate and key
paths, returned unchanged. -/
theorem grpcOptionTLS_error_message (w : World) (vp : Viper) (e : GoError)
    (he : (grpcOptionTLS w vp).err = some e) :
    (∃ p ∈ vp.GetStringSlice "tls-ca-cert-files",
        caFileGood w p = false ∧ e = caFileError w p ∧ mentions e.msg p) ∨
      (vp.GetString "tls-client-cert-file" ≠ "" ∧
        vp.GetString "tls-client-key-file" ≠ "" ∧
        w.LoadX509KeyPair (vp.GetString "tls-client-cert-file")
          (vp.GetString "tls-client-key-file") = .error e) := by
  by_cases hsec : secured w vp
  · rcases secured_outcome w vp hsec with
      ⟨pre, p, post, tr, hsplit, -, hbad, -, hrun⟩ | ⟨e2, tr, -, hc, hk, hl, hrun⟩ |
      ⟨roots, cert, tr, -, -, hrun⟩
    · rw [hrun] at he
      simp only [Option.some.injEq] at he
      subst he
      exact Or.inl ⟨p, by rw [hsplit]; simp, hbad, rfl, caFileError_mentions w p⟩
    · rw [hrun] at he
      simp only [Option.some.injEq] at he
      subst he
      exact Or.inr ⟨hc, hk, hl⟩
    · rw [hrun] at he
      cases he
  · rw [plain_outcome w vp hsec] at he
    cases he

theorem grpcOptionTLS_error_message_witness :
    (grpcOptionTLS sampleWorld vpJunkCA).err =
        some ⟨"cannot process cert 'junk.pem': must be a PEM encoded certificate"⟩ ∧
      ((∃ p ∈ vpJunkCA.GetStringSlice "tls-ca-cert-files",
          caFileGood sampleWorld p = false ∧
          (⟨"cannot process cert 'junk.pem': must be a PEM encoded certificate"⟩ : GoError) =
            caFileError sampleWorld p ∧
          mentions "cannot process cert 'junk.pem': must be a PEM encoded certificate" p) ∨
        (vpJunkCA.GetString "tls-client-cert-file" ≠ "" ∧
          vpJunkCA.GetString "tls-client-key-file" ≠ "" ∧
          sampleWorld.LoadX509KeyPair (vpJunkCA.GetString "tls-client-cert-file")
            (vpJunkCA.GetString "tls-client-key-file") =
              .error ⟨"cannot process cert 'junk.pem': must be a PEM encoded certificate"⟩)) :=
  ⟨by decide, grpcOptionTLS_error_message sampleWorld vpJunkCA _ (by decide)⟩

/-! ## C9: verification and server name -/

/-- C9: on the secured path, whenever `grpcOptionTLS` succeeds it returns a configuration
whose `InsecureSkipVerify` is the `tls-allow-insecure` value and whose `ServerName` is
the `tls-server-name` value; verification is skipped only if `tls-allow-insecure` is
true, and any other successful call, in any world, with the same two values yields the
same two fields. -/
theorem grpcOptionTLS_passthrough (w : World) (vp : Viper) (hsec : secured w vp)
    (hok : (grpcOptionTLS w vp).err = none) :
    ∃ cfg,
      (grpcOptionTLS w vp).opt = some (DialOption.WithTransportCredentials cfg) ∧
      cfg.InsecureSkipVerify = vp.GetBool "tls-allow-insecure" ∧
      cfg.ServerName = vp.GetString "tls-server-name" ∧
      (cfg.InsecureSkipVerify = true → vp.GetBool "tls-allow-insecure" = true) ∧
      ∀ (w2 : World) (vp2 : Viper) (cfg2 : TlsConfig),
        secured w2 vp2 →
        (grpcOptionTLS w2 vp2).opt = some (DialOption.WithTransportCredentials cfg2) →
        vp2.GetBool "tls-allow-insecure" = vp.GetBool "tls-allow-insecure" →
        vp2.GetString "tls-server-name" = vp.GetString "tls-server-name" →
        cfg2.InsecureSkipVerify = cfg.InsecureSkipVerify ∧
          cfg2.ServerName = cfg.ServerName := by
  have fields : ∀ (w2 : World) (vp2 : Viper) (cfg2 : TlsConfig), secured w2 vp2 →
      (grpcOptionTLS w2 vp2).opt = some (DialOption.WithTransportCredentials cfg2) →
      cfg2.InsecureSkipVerify = vp2.GetBool "tls-allow-insecure" ∧
        cfg2.ServerName = vp2.GetString "tls-server-name" := by
    intro w2 vp2 cfg2 h2 hopt
    rcases secured_outcome w2 vp2 h2 with
      ⟨pre, p, post, tr, -, -, -, -, hrun⟩ | ⟨e2, tr, -, -, -, -, hrun⟩ |
      ⟨roots, cert, tr, -, -, hrun⟩
    · rw [hrun] at hopt
      cases hopt
    · rw [hrun] at hopt
      cases hopt
    · rw [hrun] at hopt
      simp only [Option.some.injEq, DialOption.WithTransportCredentials.injEq] at hopt
      subst hopt
      exact ⟨rfl, rfl⟩
  rcases secured_outcome w vp hsec with
    ⟨pre, p, post, tr, -, -, -, -, hrun⟩ | ⟨e2, tr, -, -, -, -, hrun⟩ |
    ⟨roots, cert, tr, -, -, hrun⟩
  · rw [hrun] at hok
    cases hok
  · rw [hrun] at hok
    cases hok
  · refine ⟨_, by rw [hrun], rfl, rfl, fun h => h, ?_⟩
    intro w2 vp2 cfg2 h2 hopt hb hs
    obtain ⟨f1, f2⟩ := fields w2 vp2 cfg2 h2 hopt
    exact ⟨f1.trans hb, f2.trans hs⟩

theorem grpcOptionTLS_passthrough_witness :
    secured sampleWorld vpMutual ∧
      (grpcOptionTLS sampleWorld vpMutual).err = none ∧
      ∃ cfg,
        (grpcOptionTLS sampleWorld vpMutual).opt =
          some (DialOption.WithTransportCredentials cfg) ∧
        cfg.InsecureSkipVerify = true ∧ cfg.ServerName = "relay.example" := by
  obtain ⟨cfg, h1, h2, h3, -⟩ :=
    grpcOptionTLS_passthrough sampleWorld vpMutual (by decide) (by decide)
  exact ⟨by decide, by decide, cfg, h1, h2, h3⟩

/-! ## C10: when the call fails -/

/-- C10: `grpcOptionTLS` returns an error if and only if the configuration is on the
secured path and either some file of `tls-ca-cert-files` cannot be read or yields no
certificate, or every CA file is usable, both client paths are non-empty and the key
pair does not load; with an error the option is nil, without an error an option is
returned, and no key pair is loaded when a CA file has failed. -/
theorem grpcOptionTLS_failure_iff (w : World) (vp : Viper) :
    ((∃ e, (grpcOptionTLS w vp).err = some e) ↔
        secured w vp ∧
          ((∃ p ∈ vp.GetStringSlice "tls-ca-cert-files", caFileGood w p = false) ∨
            ((∀ p ∈ vp.GetStringSlice "tls-ca-cert-files", caFileGood w p = true) ∧
              vp.GetString "tls-client-cert-file" ≠ "" ∧
              vp.GetString "tls-client-key-file" ≠ "" ∧
              ∃ e, w.LoadX509KeyPair (vp.GetString "tls-client-cert-file")
                (vp.GetString "tls-client-key-file") = .error e))) ∧
      ((∃ e, (grpcOptionTLS w vp).err = some e) → (grpcOptionTLS w vp).opt = none) ∧
      ((grpcOptionTLS w vp).err = none → ∃ o, (grpcOptionTLS w vp).opt = some o) ∧
      ((∃ p ∈ vp.GetStringSlice "tls-ca-cert-files", caFileGood w p = false) →
        ∀ a b, IOEvent.LoadX509KeyPair a b ∉ (grpcOptionTLS w vp).trace) := by
  by_cases hsec : secured w vp
  · rcases secured_outcome w vp hsec with
      ⟨pre, p, post, tr, hsplit, -, hbad, htr, hrun⟩ | ⟨e2, tr, hall, hc, hk, hl, hrun⟩ |
      ⟨roots, cert, tr, hall, hkp, hrun⟩
    · rw [hrun]
      refine ⟨⟨fun _ => ⟨hsec, Or.inl ⟨p, by rw [hsplit]; simp, hbad⟩⟩, fun _ => ⟨_, rfl⟩⟩,
        fun _ => rfl, fun h => (by cases h), fun _ => htr⟩
    · rw [hrun]
      refine ⟨⟨fun _ => ⟨hsec, Or.inr ⟨hall, hc, hk, e2, hl⟩⟩, fun _ => ⟨_, rfl⟩⟩,
        fun _ => rfl, fun h => (by cases h), ?_⟩
      rintro ⟨q, hq, hqb⟩
      rw [hall q hq] at hqb
      cases hqb
    · rw [hrun]
      refine ⟨⟨?_, ?_⟩, ?_, fun _ => ⟨_, rfl⟩, ?_⟩
      · rintro ⟨e, he⟩
        cases he
      · rintro ⟨-, ⟨q, hq, hqb⟩ | ⟨-, hc, hk, e, hl⟩⟩
        · rw [hall q hq] at hqb
          cases hqb
        · obtain ⟨c, hc2⟩ := hkp ⟨hc, hk⟩
          rw [hl] at hc2
          cases hc2
      · rintro ⟨e, he⟩
        cases he
      · rintro ⟨q, hq, hqb⟩
        rw [hall q hq] at hqb
        cases hqb
  · rw [plain_outcome w vp hsec]
    refine ⟨⟨?_, fun h => absurd h.1 hsec⟩, ?_, fun _ => ⟨_, rfl⟩,
      fun _ a b hmem => (by simp at hmem)⟩
    · rintro ⟨e, he⟩
      cases he
    · rintro ⟨e, he⟩
      cases he

theorem grpcOptionTLS_failure_iff_witness :
    (∃ e, (grpcOptionTLS sampleWorld vpBadPair).err = some e) ∧
      (grpcOptionTLS sampleWorld vpBadPair).opt = none :=
  have h := grpcOptionTLS_failure_iff sampleWorld vpBadPair
  have herr : ∃ e, (grpcOptionTLS sampleWorld vpBadPair).err = some e :=
    h.1.2 ⟨by decide, Or.inr ⟨by decide, by decide, by decide, _, rfl⟩⟩
  ⟨herr, h.2.1 herr⟩

end Hubble
